import Mathlib

/-!
# Verification of the medibot disease-prediction backend

Shallow embedding of the parts of the repository the frozen claims are about:

* `utils.py` — `create_input_vector` (symptom vectorizer);
* `main.py` — the confidence memoization loop of the `/chat-history` endpoint
  (`chat_hist`), the `/chat-message` endpoint (`conversation`), and the shared
  confidence formatting (`max(0.001, prob)` followed by Python's `f"{prob:.2%}"`);
* `backend/chat.py` — `get_query` / `_invoke_and_record` (LLM turn handling)
  and `chat_history` (building the `messageN` map from query/response lists).

Python floats are modelled as exact rationals (`ℚ`): the claims under test
(the 0.001 floor, the `"0.10%"` sentinel, "0.00%" never produced) only involve
values where binary-float rounding and exact rational rounding agree.
Machine-learning model calls and LLM calls are abstracted as function
parameters returning `Except String _` (an `error` models a raised exception).
-/

namespace Medibot

/-! ## Decimal rendering of naturals

Models Python's decimal rendering of non-negative integers (used by
`f"{prob:.2%}"` and by `str()` on status codes).  `digitChar d` is the ASCII
digit for `d < 10`. -/

def digitChar (d : ℕ) : Char := Char.ofNat (48 + d)

def natChars : ℕ → List Char
  | n =>
    if _h : n < 10 then [digitChar n]
    else natChars (n / 10) ++ [digitChar (n % 10)]
decreasing_by exact Nat.div_lt_self (by omega) (by omega)

def natStr (n : ℕ) : String := String.mk (natChars n)

theorem natChars_lt_ten {n : ℕ} (h : n < 10) : natChars n = [digitChar n] := by
  rw [natChars]; simp [h]

theorem natChars_ge_ten {n : ℕ} (h : 10 ≤ n) :
    natChars n = natChars (n / 10) ++ [digitChar (n % 10)] := by
  rw [natChars]; simp [Nat.not_lt.mpr h]

theorem natChars_ne_nil (n : ℕ) : natChars n ≠ [] := by
  by_cases h : n < 10
  · rw [natChars_lt_ten h]; simp
  · rw [natChars_ge_ten (Nat.not_lt.mp h)]; simp

theorem one_le_length_natChars (n : ℕ) : 1 ≤ (natChars n).length := by
  have := natChars_ne_nil n
  cases hn : natChars n with
  | nil => exact absurd hn this
  | cons a l => simp

theorem two_le_length_natChars {n : ℕ} (h : 10 ≤ n) : 2 ≤ (natChars n).length := by
  rw [natChars_ge_ten h]
  have := one_le_length_natChars (n / 10)
  simp only [List.length_append, List.length_cons, List.length_nil]
  omega

theorem digitChar_eq_zero_iff {d : ℕ} (h : d < 10) : digitChar d = '0' ↔ d = 0 := by
  interval_cases d <;> decide

/-! ## Confidence formatting

Models `prob = max(0.001, prob)` followed by `f"{prob:.2%}"` (`main.py`
lines 280–284, 534–538, 640–643 — the same two lines of code at all three
sites).  `f"{p:.2%}"` renders `p * 100` with exactly two fractional digits,
rounding half-to-even, i.e. it renders `n = round(p * 10000)` as
`(n / 100) "." (n % 100 zero-padded to width 2) "%"`. -/

def pad2 (k : ℕ) : List Char :=
  if k < 10 then '0' :: natChars k else natChars k

theorem pad2_length {k : ℕ} (h : k < 100) : (pad2 k).length = 2 := by
  unfold pad2
  by_cases hk : k < 10
  · simp [hk, natChars_lt_ten hk]
  · have h10 : 10 ≤ k := Nat.not_lt.mp hk
    have hdiv : k / 10 < 10 := by omega
    simp [hk, natChars_ge_ten h10, natChars_lt_ten hdiv]

def stringOfCenti (n : ℕ) : String :=
  String.mk (natChars (n / 100) ++ '.' :: (pad2 (n % 100) ++ ['%']))

def roundHalfEven (x : ℚ) : ℤ :=
  if x - ⌊x⌋ < 1/2 then ⌊x⌋
  else if 1/2 < x - ⌊x⌋ then ⌊x⌋ + 1
  else if ⌊x⌋ % 2 = 0 then ⌊x⌋ else ⌊x⌋ + 1

def formatPercent (p : ℚ) : String :=
  stringOfCenti (roundHalfEven (p * 10000)).toNat

theorem le_roundHalfEven {k : ℤ} {x : ℚ} (h : (k : ℚ) ≤ x) : k ≤ roundHalfEven x := by
  have hk : k ≤ ⌊x⌋ := Int.le_floor.mpr h
  unfold roundHalfEven
  split_ifs <;> omega

theorem roundHalfEven_intCast (k : ℤ) : roundHalfEven ((k : ℤ) : ℚ) = k := by
  unfold roundHalfEven
  norm_num

theorem formatPercent_of_mul_eq {p : ℚ} {k : ℤ} (h : p * 10000 = ((k : ℤ) : ℚ)) :
    formatPercent p = stringOfCenti k.toNat := by
  rw [formatPercent, h, roundHalfEven_intCast]

theorem stringOfCenti_ne_zeroPercent {m : ℕ} (h : 10 ≤ m) :
    stringOfCenti m ≠ "0.00%" := by
  intro heq
  have hdata : natChars (m / 100) ++ '.' :: (pad2 (m % 100) ++ ['%'])
      = ['0', '.', '0', '0', '%'] := by
    have := congrArg String.data heq
    simpa [stringOfCenti] using this
  by_cases h100 : m < 100
  · -- integer part is "0"; the first fractional digit is `m / 10 ∈ [1, 9]`
    have hq : m / 100 = 0 := Nat.div_eq_of_lt h100
    have hmod : m % 100 = m := Nat.mod_eq_of_lt h100
    have hd10 : m / 10 < 10 := by omega
    have hpad : pad2 m = [digitChar (m / 10), digitChar (m % 10)] := by
      unfold pad2
      simp [Nat.not_lt.mpr h, natChars_ge_ten h, natChars_lt_ten hd10]
    rw [hq, hmod, hpad, natChars_lt_ten (by omega)] at hdata
    have hdig0 : digitChar 0 = '0' := by decide
    simp [hdig0] at hdata
    have : m / 10 = 0 := (digitChar_eq_zero_iff hd10).mp hdata.1
    omega
  · have h100' : 100 ≤ m := Nat.not_lt.mp h100
    by_cases hq10 : m / 100 < 10
    · -- integer part is a single nonzero digit
      have hq1 : 1 ≤ m / 100 := by omega
      rw [natChars_lt_ten hq10] at hdata
      simp at hdata
      have : m / 100 = 0 := (digitChar_eq_zero_iff hq10).mp hdata.1
      omega
    · -- integer part has at least two digits: total length exceeds 5
      have hq10' : 10 ≤ m / 100 := Nat.not_lt.mp hq10
      have hlen := congrArg List.length hdata
      have h2 := two_le_length_natChars hq10'
      have hp2 := pad2_length (k := m % 100) (Nat.mod_lt _ (by omega))
      simp only [List.length_append, List.length_cons, List.length_nil] at hlen
      omega

/-! ## Symptom vectorizer

Models `create_input_vector` (`utils.py` lines 41–48): a row of zeros over the
vocabulary columns, then `df[symp] = 1` for each selected symptom that is a
vocabulary column.  The module-level `SYMPTOMS` vocabulary is passed
explicitly. -/

def create_input_vector (vocab : List String) (selected : List String) : List ℕ :=
  vocab.map (fun s => if s ∈ selected then 1 else 0)

/-- **C7.** For every symptom set `selected ⊆ vocab` (both duplicate-free),
the vectorizer yields a vector of length `|vocab|` whose `i`-th entry is `1`
exactly when the `i`-th vocabulary symptom is selected (so it has exactly
`|selected|` ones, at the vocabulary indices of the selected symptoms); names
outside the vocabulary are silently ignored. -/
theorem C7_vectorizer (vocab selected : List String)
    (hv : vocab.Nodup) (hs : selected.Nodup) (hsub : ∀ s ∈ selected, s ∈ vocab) :
    (create_input_vector vocab selected).length = vocab.length ∧
    (create_input_vector vocab selected).count 1 = selected.length ∧
    (∀ i : ℕ, (create_input_vector vocab selected)[i]? =
      vocab[i]?.map (fun s => if s ∈ selected then 1 else 0)) ∧
    (∀ other : List String, create_input_vector vocab other =
      create_input_vector vocab (other.filter (fun s => decide (s ∈ vocab)))) := by
  refine ⟨by simp [create_input_vector], ?_, ?_, ?_⟩
  · -- the number of ones equals the number of selected symptoms
    have hcount : (create_input_vector vocab selected).count 1
        = (vocab.filter (fun s => decide (s ∈ selected))).length := by
      unfold create_input_vector
      rw [List.count, List.countP_map, ← List.countP_eq_length_filter]
      apply List.countP_congr
      intro s _
      by_cases hmem : s ∈ selected <;> simp [hmem]
    rw [hcount]
    have hperm : (vocab.filter (fun s => decide (s ∈ selected))).Perm selected := by
      apply List.perm_of_nodup_nodup_toFinset_eq (hv.filter _) hs
      ext x
      simp only [List.mem_toFinset, List.mem_filter, decide_eq_true_eq]
      exact ⟨fun hx => hx.2, fun hx => ⟨hsub x hx, hx⟩⟩
    exact hperm.length_eq
  · intro i
    simp [create_input_vector]
  · intro other
    unfold create_input_vector
    apply List.map_congr_left
    intro s hsvocab
    have : (s ∈ other.filter (fun t => decide (t ∈ vocab))) ↔ s ∈ other := by
      simp [List.mem_filter, hsvocab]
    by_cases hmem : s ∈ other <;> simp [this, hmem]

/-- Witness for `C7_vectorizer` at a concrete vocabulary and selection. -/
theorem C7_vectorizer_witness :
    (["fever", "cough", "headache"] : List String).Nodup ∧
    (["cough", "fever"] : List String).Nodup ∧
    (∀ s ∈ (["cough", "fever"] : List String), s ∈ (["fever", "cough", "headache"] : List String)) ∧
    (create_input_vector ["fever", "cough", "headache"] ["cough", "fever"]).count 1 = 2 := by
  refine ⟨by decide, by decide, by decide, ?_⟩
  exact (C7_vectorizer ["fever", "cough", "headache"] ["cough", "fever"]
    (by decide) (by decide) (by decide)).2.1

/-! ## Confidence memoizer — the `/chat-history` per-row loop

Models `chat_hist` (`main.py` lines 408–600), restricted to the confidence
logic (lines 475–574).  A `ChatRow` is a fetched `ChatDetails` row:
`confidence` is the `confidence` column (`none` = SQL NULL), `symptoms` models
the `symptoms` JSON column (`none` = NULL or `""`; invalid JSON / non-list
parses to `some []`, matching the `stored_symptoms = []` fallback).

`MemoState` threads the mutable state of one page-listing call:
* `store` — the `ChatDetails` table contents (write-backs update it);
* `hasCol` — current result of `PRAGMA table_info` (`"confidence" in columns`),
  re-checked per row at line 482 and flipped to true by the `ALTER TABLE`
  at lines 543–553;
* `count` — `conn._compute_count` (lines 521, 528), starting at 0 for the
  fresh per-request connection;
* `calls` — instrumentation: number of `PREDICTION_MODEL.predict` invocations.

`fetchCol` is whether the confidence column existed when the page was fetched
(it determines `"confidence" in row_dict`, which is snapshotted at fetch time),
`recompute` is the `recompute_confidence` query flag, and `classify` abstracts
`create_input_vector` + `PREDICTION_MODEL.predict` + `np.max` (an `error`
models a raised exception anywhere in that pipeline). -/

structure ChatRow where
  chat_id : ℕ
  confidence : Option String
  symptoms : Option (List String)
deriving DecidableEq

structure MemoState where
  store : List ChatRow
  hasCol : Bool
  count : ℕ
  calls : ℕ
deriving DecidableEq

/-- Lines 487–492: a stored confidence is valid when it is not NULL and not
one of `""`, `"0%"`, `"0.00%"` (the column-existence conjuncts are handled by
the caller). -/
def isValidConf : Option String → Bool
  | none => false
  | some s => !(s == "" || s == "0%" || s == "0.00%")

/-- Lines 562–564: `UPDATE ChatDetails SET confidence = ? WHERE chat_id = ?`. -/
def updateConfStore (rows : List ChatRow) (cid : ℕ) (conf : String) : List ChatRow :=
  rows.map (fun r => if r.chat_id == cid then { r with confidence := some conf } else r)

/-- Lines 475–574, one iteration of the `for c in chat_data` loop.
At the point where `should_compute` is assigned (line 514) `confidence_value`
is always `None` (it is only ever set in the mutually-exclusive valid-cached
branch), so `should_compute = recompute or True or ...` is `True`; the budget
branch (lines 519–528) and the classifier call then follow verbatim.  A
classifier exception lands in the handler at lines 569–574, which sets the
sentinel and persists nothing. -/
def processRow (classify : List String → Except String ℚ)
    (recompute fetchCol : Bool) (st : MemoState) (c : ChatRow) :
    MemoState × Option String :=
  if st.hasCol && fetchCol && isValidConf c.confidence then
    -- lines 494–497: valid cached value, returned as-is, no side effect
    (st, c.confidence)
  else
    match c.symptoms with
    | none => (st, none)          -- line 500 fails: confidence stays None
    | some syms =>
      if syms.isEmpty then (st, none)   -- line 509: empty symptom list
      else if !recompute && !st.hasCol && decide (5 < st.count) then
        -- lines 521–525: budget exceeded, placeholder, not persisted
        (st, some "0.10%")
      else
        -- line 528: increment the budget counter when the cap branch ran
        let st1 := if !recompute && !st.hasCol then
          { st with count := st.count + 1 } else st
        match classify syms with
        | .error _ =>
          -- lines 569–574: sentinel, nothing persisted, error swallowed
          ({ st1 with calls := st1.calls + 1 }, some "0.10%")
        | .ok p =>
          -- lines 532–538: clamp at 0.001 and format; 541–565: write back,
          -- adding the confidence column first when it is missing
          let conf := formatPercent (max (1/1000 : ℚ) p)
          ({ store := updateConfStore st1.store c.chat_id conf,
             hasCol := true, count := st1.count, calls := st1.calls + 1 },
           some conf)

def listChatsGo (classify : List String → Except String ℚ)
    (recompute fetchCol : Bool) :
    MemoState → List ChatRow → MemoState × List (ℕ × Option String)
  | st, [] => (st, [])
  | st, c :: cs =>
    let pr := processRow classify recompute fetchCol st c
    let rest := listChatsGo classify recompute fetchCol pr.1 cs
    (rest.1, (c.chat_id, pr.2) :: rest.2)

/-- One page-listing call: the loop over the fetched rows, starting from the
fetch-time schema and a zero budget counter (the connection is fresh, so
`getattr(conn, '_compute_count', 0)` is 0). -/
def listChats (classify : List String → Except String ℚ)
    (recompute fetchCol : Bool) (rows : List ChatRow) :
    MemoState × List (ℕ × Option String) :=
  listChatsGo classify recompute fetchCol ⟨rows, fetchCol, 0, 0⟩ rows

theorem listChatsGo_length (classify : List String → Except String ℚ)
    (recompute fetchCol : Bool) :
    ∀ (rows : List ChatRow) (st : MemoState),
      (listChatsGo classify recompute fetchCol st rows).2.length = rows.length := by
  intro rows
  induction rows with
  | nil => intro st; rfl
  | cons c cs ih => intro st; simp [listChatsGo, ih]

/-! Concrete inputs used by the closed theorems below. -/

def classifyConst (p : ℚ) : List String → Except String ℚ := fun _ => .ok p

def classifyFail : List String → Except String ℚ := fun _ => .error "model failure"

def c1Row (i : ℕ) : ChatRow := ⟨i, none, some ["itching"]⟩

def c1Rows7 : List ChatRow :=
  [c1Row 1, c1Row 2, c1Row 3, c1Row 4, c1Row 5, c1Row 6, c1Row 7]

def c1Rows8 : List ChatRow := c1Rows7 ++ [c1Row 8]

/-- **C1 (code bug).** The claimed 5-computation budget does not bind.  With
the confidence column present (the normal state: `migrate_db` runs at
startup), 7 rows with NULL confidence and non-empty symptoms are ALL
recomputed and persisted — the budget branch requires the column to be
absent.  And when the column is absent, the `compute_count > 5` guard still
admits 6 classifier attempts before skipping. -/
theorem C1_budget_cap_divergence :
    ((listChats (classifyConst (9/10)) false true c1Rows7).1.calls = 7 ∧
      ¬ (listChats (classifyConst (9/10)) false true c1Rows7).1.calls ≤ 5 ∧
      (listChats (classifyConst (9/10)) false true c1Rows7).1.store.all
        (fun r => r.confidence.isSome) = true ∧
      (listChats (classifyConst (9/10)) false true c1Rows7).2.all
        (fun pr => pr.2.isSome) = true) ∧
    ((listChats classifyFail false false c1Rows8).1.calls = 6 ∧
      ¬ (6 : ℕ) ≤ 5) := by
  exact ⟨⟨by decide, by decide, by decide, by decide⟩, ⟨by decide, by decide⟩⟩

def c2Row : ChatRow := ⟨1, some "73.42%", some ["itching"]⟩

/-- **C2 (counterexample).** With `recompute_confidence=true` and a row whose
cached confidence `"73.42%"` is valid, the classifier is never invoked and the
cached value is returned unchanged — refuting the claim that the flag forces
recomputation regardless of cache state. -/
theorem C2_counterexample :
    (listChats (classifyConst (9/10)) true true [c2Row]).1.calls = 0 ∧
    (listChats (classifyConst (9/10)) true true [c2Row]).2 = [(1, some "73.42%")] ∧
    (listChats (classifyConst (9/10)) true true [c2Row]).1.store = [c2Row] := by
  exact ⟨by decide, by decide, by decide⟩

/-- **C2 (amended).** The valid-cached branch takes priority over the
`recompute_confidence` flag: with the flag set, a row with a valid cached
confidence returns the cached value with no classifier call and no state
change, while a row without a valid cached confidence (and a non-empty
symptom list) does get exactly one classifier invocation (the flag also
bypasses the budget branch). -/
theorem C2_flag_respects_valid_cache (classify : List String → Except String ℚ)
    (fetchCol : Bool) (st : MemoState) (c : ChatRow) :
    ((st.hasCol && fetchCol && isValidConf c.confidence) = true →
      processRow classify true fetchCol st c = (st, c.confidence)) ∧
    (∀ syms : List String,
      (st.hasCol && fetchCol && isValidConf c.confidence) = false →
      c.symptoms = some syms → syms.isEmpty = false →
      (processRow classify true fetchCol st c).1.calls = st.calls + 1) := by
  constructor
  · intro h
    simp [processRow, h]
  · intro syms hval hsym hne
    cases hcl : classify syms with
    | error e => simp [processRow, hval, hsym, hne, hcl]
    | ok p => simp [processRow, hval, hsym, hne, hcl]

/-- Witness for `C2_flag_respects_valid_cache` at a concrete cached row. -/
theorem C2_flag_respects_valid_cache_witness :
    ((MemoState.mk [c2Row] true 0 0).hasCol && true
        && isValidConf c2Row.confidence) = true ∧
    processRow (classifyConst (9/10)) true true (MemoState.mk [c2Row] true 0 0) c2Row
      = (MemoState.mk [c2Row] true 0 0, some "73.42%") := by
  refine ⟨by decide, ?_⟩
  exact (C2_flag_respects_valid_cache (classifyConst (9/10)) true
    (MemoState.mk [c2Row] true 0 0) c2Row).1 (by decide)

/-- **C3.** If the classifier pipeline raises during a row's recomputation,
that row's response confidence is the sentinel `"0.10%"`, nothing is persisted
(store and schema unchanged), and the listing still returns one entry per
fetched row. -/
theorem C3_row_error_sentinel (classify : List String → Except String ℚ)
    (recompute fetchCol : Bool) (st : MemoState) (c : ChatRow)
    (syms : List String) (e : String)
    (hval : (st.hasCol && fetchCol && isValidConf c.confidence) = false)
    (hsym : c.symptoms = some syms) (hne : syms.isEmpty = false)
    (hskip : (!recompute && !st.hasCol && decide (5 < st.count)) = false)
    (herr : classify syms = .error e) :
    (processRow classify recompute fetchCol st c).2 = some "0.10%" ∧
    (processRow classify recompute fetchCol st c).1.store = st.store ∧
    (processRow classify recompute fetchCol st c).1.hasCol = st.hasCol ∧
    (∀ rows : List ChatRow,
      (listChats classify recompute fetchCol rows).2.length = rows.length) := by
  refine ⟨?_, ?_, ?_, fun rows => listChatsGo_length classify recompute fetchCol rows _⟩
  all_goals
    simp only [processRow, hval, Bool.false_eq_true, if_false, hsym, hne, hskip, herr]
  all_goals split <;> rfl

/-- Witness for `C3_row_error_sentinel` at a concrete failing row. -/
theorem C3_row_error_sentinel_witness :
    ((MemoState.mk [c1Row 1] true 0 0).hasCol && true
        && isValidConf (c1Row 1).confidence) = false ∧
    (c1Row 1).symptoms = some ["itching"] ∧
    (["itching"] : List String).isEmpty = false ∧
    (!false && !(MemoState.mk [c1Row 1] true 0 0).hasCol
        && decide (5 < (MemoState.mk [c1Row 1] true 0 0).count)) = false ∧
    classifyFail ["itching"] = .error "model failure" ∧
    (processRow classifyFail false true (MemoState.mk [c1Row 1] true 0 0) (c1Row 1)).2
      = some "0.10%" := by
  refine ⟨by decide, rfl, by decide, by decide, rfl, ?_⟩
  exact (C3_row_error_sentinel classifyFail false true (MemoState.mk [c1Row 1] true 0 0)
    (c1Row 1) ["itching"] "model failure" (by decide) rfl (by decide) (by decide) rfl).1

/-- **C5.** The memoizer's validity predicate is false exactly on
`None`, `""`, `"0%"`, `"0.00%"`; and (with the confidence column present) a
row's stored confidence is returned as-is with no side effect — no classifier
call, no write-back, no state change at all — if and only if it passes the
predicate. -/
theorem C5_validity_predicate (classify : List String → Except String ℚ)
    (recompute : Bool) (st : MemoState) (row : ChatRow) (s : String)
    (hcol : st.hasCol = true) (hconf : row.confidence = some s) :
    (∀ c : Option String, (isValidConf c = false ↔
      (c = none ∨ c = some "" ∨ c = some "0%" ∨ c = some "0.00%"))) ∧
    (processRow classify recompute true st row = (st, some s) ↔
      isValidConf (some s) = true) := by
  constructor
  · intro c
    cases c with
    | none => simp [isValidConf]
    | some t =>
      simp only [isValidConf, Bool.not_eq_false', Bool.or_eq_true, beq_iff_eq,
        Option.some.injEq, reduceCtorEq, false_or]
      tauto
  · constructor
    · intro heq
      cases hB : isValidConf (some s) with
      | true => rfl
      | false =>
        exfalso
        cases hsym : row.symptoms with
        | none => simp [processRow, hconf, hB, hsym] at heq
        | some syms =>
          by_cases hne : syms.isEmpty
          · simp [processRow, hconf, hB, hsym, hne] at heq
          · cases hcl : classify syms with
            | error e =>
              have hs010 : s = "0.10%" := by
                have h2 := congrArg Prod.snd heq
                simp [processRow, hconf, hB, hsym, hne, hcl, hcol] at h2
                exact h2.symm
              rw [hs010] at hB
              simp [isValidConf] at hB
            | ok p =>
              have h2 := congrArg (fun pr => pr.1.calls) heq
              simp [processRow, hconf, hB, hsym, hne, hcl, hcol] at h2
    · intro hval
      simp [processRow, hcol, hconf, hval]

/-- Witness for `C5_validity_predicate`: a valid cached value is returned
as-is with no state change. -/
theorem C5_validity_predicate_witness :
    (MemoState.mk [c2Row] true 0 0).hasCol = true ∧
    c2Row.confidence = some "73.42%" ∧
    processRow (classifyConst (9/10)) false true (MemoState.mk [c2Row] true 0 0) c2Row
      = (MemoState.mk [c2Row] true 0 0, some "73.42%") := by
  refine ⟨rfl, rfl, ?_⟩
  exact ((C5_validity_predicate (classifyConst (9/10)) false
    (MemoState.mk [c2Row] true 0 0) c2Row "73.42%" rfl rfl).2).mpr (by decide)

theorem stringOfCenti_ten : stringOfCenti 10 = "0.10%" := by
  have h0 : natChars 0 = ['0'] := by
    rw [natChars_lt_ten (by norm_num)]; decide
  have h10 : natChars 10 = ['1', '0'] := by
    rw [natChars_ge_ten (by norm_num)]
    norm_num
    rw [natChars_lt_ten (by norm_num)]
    decide
  rw [stringOfCenti]
  norm_num [pad2, h0, h10]

/-- **C6.** Every recomputation clamps the classifier's max-class probability
below at `0.001` before formatting; probability `0` therefore formats to
exactly `"0.10%"`, and a clamped probability never formats to `"0.00%"`.  The
last conjunct ties this to the memoizer: the computed row confidence is
exactly `formatPercent (max 0.001 p)` (the `/predict` and `/update-confidence`
endpoints run the same two source lines). -/
theorem C6_confidence_floor (classify : List String → Except String ℚ)
    (recompute fetchCol : Bool) (st : MemoState) (c : ChatRow)
    (syms : List String) (p : ℚ)
    (hval : (st.hasCol && fetchCol && isValidConf c.confidence) = false)
    (hsym : c.symptoms = some syms) (hne : syms.isEmpty = false)
    (hskip : (!recompute && !st.hasCol && decide (5 < st.count)) = false)
    (hok : classify syms = .ok p) :
    (1/1000 : ℚ) ≤ max (1/1000 : ℚ) p ∧
    (∀ q : ℚ, formatPercent (max (1/1000 : ℚ) q) ≠ "0.00%") ∧
    formatPercent (max (1/1000 : ℚ) 0) = "0.10%" ∧
    (processRow classify recompute fetchCol st c).2 =
      some (formatPercent (max (1/1000 : ℚ) p)) := by
  refine ⟨le_max_left _ _, ?_, ?_, ?_⟩
  · intro q
    unfold formatPercent
    apply stringOfCenti_ne_zeroPercent
    have h1 : ((10 : ℤ) : ℚ) ≤ max (1/1000 : ℚ) q * 10000 := by
      have hm : (1/1000 : ℚ) * 10000 ≤ max (1/1000 : ℚ) q * 10000 :=
        mul_le_mul_of_nonneg_right (le_max_left _ _) (by norm_num)
      calc ((10 : ℤ) : ℚ) = (1/1000 : ℚ) * 10000 := by norm_num
        _ ≤ _ := hm
    have h2 : (10 : ℤ) ≤ roundHalfEven (max (1/1000 : ℚ) q * 10000) :=
      le_roundHalfEven h1
    omega
  · have hmax : max (1/1000 : ℚ) 0 = 1/1000 := max_eq_left (by norm_num)
    rw [hmax, formatPercent_of_mul_eq (k := 10) (by norm_num)]
    exact stringOfCenti_ten
  · simp only [processRow, hval, Bool.false_eq_true, if_false, hsym, hne, hskip, hok]

/-- Witness for `C6_confidence_floor` at a concrete compute path. -/
theorem C6_confidence_floor_witness :
    ((MemoState.mk [c1Row 1] true 0 0).hasCol && true
        && isValidConf (c1Row 1).confidence) = false ∧
    (c1Row 1).symptoms = some ["itching"] ∧
    (["itching"] : List String).isEmpty = false ∧
    (!false && !(MemoState.mk [c1Row 1] true 0 0).hasCol
        && decide (5 < (MemoState.mk [c1Row 1] true 0 0).count)) = false ∧
    classifyConst (9/10) ["itching"] = .ok (9/10) ∧
    (processRow (classifyConst (9/10)) false true (MemoState.mk [c1Row 1] true 0 0)
        (c1Row 1)).2 = some (formatPercent (max (1/1000 : ℚ) (9/10))) := by
  refine ⟨by decide, rfl, by decide, by decide, rfl, ?_⟩
  exact (C6_confidence_floor (classifyConst (9/10)) false true
    (MemoState.mk [c1Row 1] true 0 0) (c1Row 1) ["itching"] (9/10)
    (by decide) rfl (by decide) (by decide) rfl).2.2.2

/-! ## Message log replay — the `/chat-message` endpoint

Models `conversation` (`main.py` lines 313–406) with `get_query` /
`_invoke_and_record` (`backend/chat.py` lines 21–77).  A stored message log
is a JSON dict mapping keys `"messageN"` to `{query, response}` turns; the
numeric sort key extracted at lines 361–362 is `N`, so log entries are
modelled as `(N, Turn)` pairs listed in storage (dict insertion) order. -/

structure Turn where
  query : Option String
  response : Option String
deriving DecidableEq

inductive Msg where
  | human (s : String)
  | ai (s : String)
deriving DecidableEq

/-- Python truthiness of `msg.get('query')` / `msg.get('response')`:
absent (None) and `""` are falsy. -/
def truthy : Option String → Bool
  | none => false
  | some s => !(s == "")

/-- Lines 364–369: a turn contributes its query as a human message then its
response as an AI message, skipping falsy fields. -/
def msgsOfTurn (t : Turn) : List Msg :=
  (if truthy t.query then [Msg.human (t.query.getD "")] else []) ++
  (if truthy t.response then [Msg.ai (t.response.getD "")] else [])

def keyLE (a b : ℕ × Turn) : Prop := a.1 ≤ b.1

def keyLT (a b : ℕ × Turn) : Prop := a.1 < b.1

instance : DecidableRel keyLE := fun x y => (inferInstance : Decidable (x.1 ≤ y.1))

instance : IsTotal (ℕ × Turn) keyLE := ⟨fun a b => Nat.le_total a.1 b.1⟩

instance : IsTrans (ℕ × Turn) keyLE := ⟨fun _ _ _ => Nat.le_trans⟩

instance : IsAntisymm (ℕ × Turn) keyLT :=
  ⟨fun _ _ h h2 => absurd (Nat.lt_trans h h2) (Nat.lt_irrefl _)⟩

/-- Lines 361–362: `sorted(stored_history.keys(), key=...numeric...)`. -/
def sortMessages (l : List (ℕ × Turn)) : List (ℕ × Turn) :=
  List.insertionSort keyLE l

def msgsOfLog : List (ℕ × Turn) → List Msg
  | [] => []
  | e :: es => msgsOfTurn e.2 ++ msgsOfLog es

/-- Lines 360–369: the `conversation` list handed to the LLM chain — turns in
ascending numeric key order, each contributing its non-falsy fields. -/
def replayMessages (l : List (ℕ × Turn)) : List Msg :=
  msgsOfLog (sortMessages l)

theorem msgsOfLog_orderedInsert {e : ℕ × Turn} (he : msgsOfTurn e.2 = [])
    (l : List (ℕ × Turn)) :
    msgsOfLog (List.orderedInsert keyLE e l) = msgsOfLog l := by
  induction l with
  | nil => simp [List.orderedInsert, msgsOfLog, he]
  | cons x xs ih =>
    by_cases h : keyLE e x
    · simp [List.orderedInsert, h, msgsOfLog, he]
    · simp [List.orderedInsert, h, msgsOfLog, ih]

theorem sorted_keyLT_sortMessages {l : List (ℕ × Turn)}
    (h : (l.map Prod.fst).Nodup) : List.Sorted keyLT (sortMessages l) := by
  have hle : List.Sorted keyLE (sortMessages l) := List.sorted_insertionSort keyLE l
  have hperm : (sortMessages l).Perm l := List.perm_insertionSort keyLE l
  have hnd : ((sortMessages l).map Prod.fst).Nodup :=
    ((hperm.map Prod.fst).nodup_iff).mpr h
  have hpw : (sortMessages l).Pairwise (fun a b => a.1 ≠ b.1) :=
    List.pairwise_map.mp hnd
  exact (hle.and hpw).imp (fun hab => Nat.lt_of_le_of_ne hab.1 hab.2)

theorem sortMessages_perm_eq {l l' : List (ℕ × Turn)} (hp : l.Perm l')
    (hnd : (l.map Prod.fst).Nodup) : sortMessages l = sortMessages l' := by
  have hnd' : (l'.map Prod.fst).Nodup := ((hp.map Prod.fst).nodup_iff).mp hnd
  have hperm : (sortMessages l).Perm (sortMessages l') :=
    (List.perm_insertionSort keyLE l).trans
      (hp.trans (List.perm_insertionSort keyLE l').symm)
  exact List.eq_of_perm_of_sorted hperm
    (sorted_keyLT_sortMessages hnd) (sorted_keyLT_sortMessages hnd')

/-- **C8.** Replay into the LLM context is determined by the numeric keys and
not by storage order: permuting the stored log (keys distinct) leaves the
replayed context unchanged; the replay processes turns in strictly ascending
numeric key order; and a turn with neither a query nor a response contributes
no message to the replayed context. -/
theorem C8_replay_order (l l' : List (ℕ × Turn))
    (hp : l.Perm l') (hnd : (l.map Prod.fst).Nodup) :
    replayMessages l = replayMessages l' ∧
    List.Sorted keyLT (sortMessages l) ∧
    (∀ (k : ℕ) (t : Turn), truthy t.query = false → truthy t.response = false →
      replayMessages ((k, t) :: l) = replayMessages l) := by
  refine ⟨?_, sorted_keyLT_sortMessages hnd, ?_⟩
  · rw [replayMessages, replayMessages, sortMessages_perm_eq hp hnd]
  · intro k t hq hr
    have he : msgsOfTurn (k, t).2 = [] := by simp [msgsOfTurn, hq, hr]
    show msgsOfLog (List.orderedInsert keyLE (k, t) (List.insertionSort keyLE l))
      = msgsOfLog (List.insertionSort keyLE l)
    exact msgsOfLog_orderedInsert he _

/-- Witness for `C8_replay_order`: a log persisted out of order replays
identically to the in-order log. -/
theorem C8_replay_order_witness :
    ([((3 : ℕ), Turn.mk (some "q3") (some "r3")), (1, Turn.mk (some "q1") (some "r1"))].Perm
      [(1, Turn.mk (some "q1") (some "r1")), (3, Turn.mk (some "q3") (some "r3"))]) ∧
    (([((3 : ℕ), Turn.mk (some "q3") (some "r3")),
        (1, Turn.mk (some "q1") (some "r1"))].map Prod.fst).Nodup) ∧
    replayMessages [((3 : ℕ), Turn.mk (some "q3") (some "r3")),
        (1, Turn.mk (some "q1") (some "r1"))]
      = replayMessages [((1 : ℕ), Turn.mk (some "q1") (some "r1")),
        (3, Turn.mk (some "q3") (some "r3"))] := by
  refine ⟨by decide, by decide, ?_⟩
  exact (C8_replay_order _ _ (by decide) (by decide)).1

/-! ## The `/chat-message` endpoint (`conversation`, `main.py` 313–406)

A `ChatRec` is a `ChatDetails` row as read by `conversation`: messages
(parsed, `(N, Turn)` pairs), disease and symptoms.  `llm` abstracts the
LangChain `chain.invoke` (an `error` models a raised exception; on an
exception `_invoke_and_record` appends an error AI message to the in-memory
list only and re-raises, so nothing reaches storage). -/

structure ChatRec where
  chat_id : ℕ
  user_id : ℕ
  messages : List (ℕ × Turn)
  disease : Option String
  symptoms : Option (List String)
deriving DecidableEq

/-- A raised Python exception: either a FastAPI `HTTPException` or any other
exception carrying its `str()` rendering. -/
inductive PyExc where
  | httpExc (code : ℕ) (detail : String)
  | other (msg : String)
deriving DecidableEq

/-- Python `str(e)`: starlette's `HTTPException.__str__` renders
`"{status_code}: {detail}"`; other exceptions render their message. -/
def strOfExc : PyExc → String
  | .httpExc code detail => natStr code ++ ": " ++ detail
  | .other m => m

/-- Line 321: `SELECT ... WHERE chat_id = ? AND user_id = ?` + `fetchone`. -/
def findChat (store : List ChatRec) (uid cid : ℕ) : Option ChatRec :=
  store.find? (fun r => r.chat_id == cid && r.user_id == uid)

/-- Lines 390–394: `UPDATE ChatDetails SET messages = ? WHERE chat_id = ? AND
user_id = ?`. -/
def updateMessages (store : List ChatRec) (uid cid : ℕ)
    (msgs : List (ℕ × Turn)) : List ChatRec :=
  store.map (fun r =>
    if r.chat_id == cid && r.user_id == uid then { r with messages := msgs } else r)

/-- `backend/chat.py` lines 14–18 and 58–61: `_QUERY_MAP` lookup with default
template `"Disease: {disease}\n{query_text}"`; a NULL disease renders as
Python's `str(None) = "None"`. -/
def applyTemplate (q : String) (disease : Option String) : String :=
  let d := match disease with | none => "None" | some s => s
  if q == "Explain my disease in simple words" then
    "Explain my " ++ d ++ " in simple words."
  else if q == "Is this curable? If yes, how long?" then
    "Is " ++ d ++ " curable? If yes, how long?"
  else if q == "Write prescription & health tips" then
    "Write prescription & health tips for me to recover from " ++ d ++ "."
  else if q == "When should I see a doctor?" then
    "When should I see a doctor for my " ++ d ++ "?"
  else
    "Disease: " ++ d ++ "\n" ++ q

/-- Lines 374–380: `max(msg_numbers) + 1 if msg_numbers else 1` — the maximum
over no keys is taken as 0. -/
def nextMsgNum (msgs : List (ℕ × Turn)) : ℕ :=
  (msgs.map Prod.fst).foldr max 0 + 1

/-- The message list handed to `chain.invoke` (the system prompt is injected
separately by the prompt template): the replayed log followed by the new
templated human message appended by `get_query` (chat.py line 62). -/
def convContext (row : ChatRec) (q : String) : List Msg :=
  replayMessages row.messages ++ [Msg.human (applyTemplate q row.disease)]

/-- The try-block body of `conversation` (lines 317–401): 404 when the
(chat_id, user_id) lookup misses; invoke the LLM; on success append the raw
`(query, response)` under the next sequential key and persist the full log. -/
def conversationInner (llm : List Msg → Except String String)
    (store : List ChatRec) (uid cid : ℕ) (q : String) :
    Except PyExc (List ChatRec × String) :=
  match findChat store uid cid with
  | none => .error (.httpExc 404 "Chat not found")
  | some row =>
    match llm (convContext row q) with
    | .error e => .error (.other e)
    | .ok resp =>
      .ok (updateMessages store uid cid
        (row.messages ++ [(nextMsgNum row.messages, Turn.mk (some q) (some resp))]),
        resp)

/-- Lines 403–406: `except Exception as e: raise HTTPException(500, f"Failed
to process chat: {str(e)}")`.  `HTTPException` is an `Exception` subclass, so
this catches EVERY exception raised in the try-block — including the
`HTTPException(404)` raised at line 326 — and rewraps it as a 500.  The
result pairs the (possibly updated) store with the HTTP outcome. -/
def conversationEndpoint (llm : List Msg → Except String String)
    (store : List ChatRec) (uid cid : ℕ) (q : String) :
    List ChatRec × Except (ℕ × String) String :=
  match conversationInner llm store uid cid q with
  | .ok (store1, resp) => (store1, .ok resp)
  | .error e => (store, .error (500, "Failed to process chat: " ++ strOfExc e))

theorem natStr_404 : natStr 404 = "404" := by
  rw [natStr, natChars_ge_ten (by norm_num)]
  norm_num
  rw [natChars_ge_ten (by norm_num)]
  norm_num
  rw [natChars_lt_ten (by norm_num)]
  decide

def c4Store : List ChatRec :=
  [ChatRec.mk 1 1 [] (some "Flu") (some ["fever"])]

/-- **C4 (code bug).** A chat-message request whose (chat_id, user_id) pair
matches no stored row does NOT surface as a 404: the endpoint's blanket
`except Exception` catches the `HTTPException(404)` and rewraps it as a 500
with detail `"Failed to process chat: 404: Chat not found"`.  (The second
half of the claim is accurate: an LLM failure yields a 500.) -/
theorem C4_notfound_wrapped_500 :
    conversationEndpoint (fun _ => .ok "hello") [] 1 7 "hi"
      = ([], .error (500, "Failed to process chat: 404: Chat not found")) ∧
    (500 : ℕ) ≠ 404 ∧
    conversationEndpoint (fun _ => .error "LLM down") c4Store 1 1 "hi"
      = (c4Store, .error (500, "Failed to process chat: LLM down")) := by
  refine ⟨?_, by decide, ?_⟩
  · have hmsg : "Failed to process chat: " ++ strOfExc (.httpExc 404 "Chat not found")
        = "Failed to process chat: 404: Chat not found" := by
      simp [strOfExc, natStr_404]
    simp [conversationEndpoint, conversationInner, findChat, hmsg]
  · simp [conversationEndpoint, conversationInner, findChat, c4Store, strOfExc]

theorem findChat_updateMessages {store : List ChatRec} {uid cid : ℕ} {row : ChatRec}
    (h : findChat store uid cid = some row) (msgs : List (ℕ × Turn)) :
    findChat (updateMessages store uid cid msgs) uid cid
      = some { row with messages := msgs } := by
  induction store with
  | nil => simp [findChat] at h
  | cons x xs ih =>
    by_cases hx : (x.chat_id == cid && x.user_id == uid) = true
    · rw [findChat,
        List.find?_cons_of_pos (p := fun r : ChatRec => r.chat_id == cid && r.user_id == uid) xs hx] at h
      have hxrow : x = row := by simpa using h
      subst hxrow
      rw [updateMessages, List.map_cons, if_pos hx, findChat]
      exact List.find?_cons_of_pos (p := fun r : ChatRec => r.chat_id == cid && r.user_id == uid)
        _ (by simpa using hx)
    · rw [findChat,
        List.find?_cons_of_neg (p := fun r : ChatRec => r.chat_id == cid && r.user_id == uid)
          xs (by simpa using hx)] at h
      have htail := ih h
      rw [updateMessages, List.map_cons, if_neg (by simpa using hx), findChat]
      rw [List.find?_cons_of_neg (p := fun r : ChatRec => r.chat_id == cid && r.user_id == uid)
        _ (by simpa using hx)]
      exact htail

/-- **C9.** On LLM success the raw (query, response) pair is appended under
the next sequential key — one greater than the maximum existing numeric key,
and `1` for an empty log — and the full updated log is persisted for that
chat; on LLM failure the store is returned unchanged and the failure
surfaces as the 500 chat-processing error. -/
theorem C9_turn_persistence (llm : List Msg → Except String String)
    (store : List ChatRec) (uid cid : ℕ) (q : String) (row : ChatRec)
    (hfind : findChat store uid cid = some row) :
    nextMsgNum [] = 1 ∧
    (∀ resp, llm (convContext row q) = .ok resp →
      conversationEndpoint llm store uid cid q =
        (updateMessages store uid cid
          (row.messages ++ [(nextMsgNum row.messages, Turn.mk (some q) (some resp))]),
         .ok resp) ∧
      findChat (updateMessages store uid cid
          (row.messages ++ [(nextMsgNum row.messages, Turn.mk (some q) (some resp))]))
          uid cid
        = some { row with messages :=
            row.messages ++ [(nextMsgNum row.messages, Turn.mk (some q) (some resp))] }) ∧
    (∀ e, llm (convContext row q) = .error e →
      conversationEndpoint llm store uid cid q =
        (store, .error (500, "Failed to process chat: " ++ e))) := by
  refine ⟨rfl, ?_, ?_⟩
  · intro resp hok
    refine ⟨?_, findChat_updateMessages hfind _⟩
    simp [conversationEndpoint, conversationInner, hfind, hok]
  · intro e herr
    simp [conversationEndpoint, conversationInner, hfind, herr, strOfExc]

def c9Row : ChatRec :=
  ChatRec.mk 1 1 [(1, Turn.mk (some "hi") (some "yo"))] (some "Flu") (some ["fever"])

def c9Store : List ChatRec := [c9Row]

/-- Witness for `C9_turn_persistence` at a concrete store and LLM. -/
theorem C9_turn_persistence_witness :
    findChat c9Store 1 1 = some c9Row ∧
    conversationEndpoint (fun _ => Except.ok "pong") c9Store 1 1 "thanks" =
      (updateMessages c9Store 1 1
        (c9Row.messages ++ [(nextMsgNum c9Row.messages, Turn.mk (some "thanks") (some "pong"))]),
       Except.ok "pong") := by
  refine ⟨rfl, ?_⟩
  exact ((C9_turn_persistence (fun _ => Except.ok "pong") c9Store 1 1 "thanks" c9Row
    rfl).2.1 "pong" rfl).1

/-! ## `chat_history` (`backend/chat.py` lines 79–87)

Builds the `messageN` dict from parallel query/response lists via
`zip_longest(queries, responses, fillvalue=None)`, keys `"message1"`,
`"message2"`, ... in order.  The dict is modelled as an association list in
insertion order. -/

def zipLongest {α β : Type} : List α → List β → List (Option α × Option β)
  | [], [] => []
  | [], b :: bs => (none, some b) :: zipLongest [] bs
  | a :: as, [] => (some a, none) :: zipLongest as []
  | a :: as, b :: bs => (some a, some b) :: zipLongest as bs

/-- The key `f'message{i+1}'`. -/
def msgKey (i : ℕ) : String := String.mk ("message".data ++ natChars i)

def chatHistoryGo (i : ℕ) :
    List (Option String × Option String) → List (String × (Option String × Option String))
  | [] => []
  | p :: ps => (msgKey i, p) :: chatHistoryGo (i + 1) ps

def chat_history (queries responses : List String) :
    List (String × (Option String × Option String)) :=
  chatHistoryGo 1 (zipLongest queries responses)

theorem zipLongest_nil_left {α β : Type} (r : List β) :
    zipLongest ([] : List α) r = r.map (fun b => (none, some b)) := by
  induction r with
  | nil => simp [zipLongest]
  | cons b bs ih => simp [zipLongest, ih]

theorem zipLongest_nil_right {α β : Type} (q : List α) :
    zipLongest q ([] : List β) = q.map (fun a => (some a, none)) := by
  induction q with
  | nil => simp [zipLongest]
  | cons a as ih => simp [zipLongest, ih]

theorem zipLongest_getElem? {α β : Type} :
    ∀ (q : List α) (r : List β) (i : ℕ),
      (zipLongest q r)[i]? =
        if i < max q.length r.length then some (q[i]?, r[i]?) else none := by
  intro q
  induction q with
  | nil =>
    intro r
    induction r with
    | nil => intro i; simp [zipLongest]
    | cons b bs ihr =>
      intro i
      cases i with
      | zero => simp [zipLongest]
      | succ j =>
        simp only [zipLongest, List.getElem?_cons_succ, ihr j]
        simp [Nat.succ_lt_succ_iff]
  | cons a as ih =>
    intro r i
    cases r with
    | nil =>
      cases i with
      | zero => simp [zipLongest]
      | succ j =>
        simp only [zipLongest, List.getElem?_cons_succ, ih ([] : List β) j]
        simp [Nat.succ_lt_succ_iff]
    | cons b bs =>
      cases i with
      | zero => simp [zipLongest]
      | succ j =>
        simp only [zipLongest, List.getElem?_cons_succ, ih bs j]
        simp [Nat.succ_lt_succ_iff, Nat.succ_max_succ]

theorem chatHistoryGo_getElem? :
    ∀ (l : List (Option String × Option String)) (k i : ℕ),
      (chatHistoryGo k l)[i]? = l[i]?.map (fun p => (msgKey (k + i), p)) := by
  intro l
  induction l with
  | nil => intro k i; simp [chatHistoryGo]
  | cons p ps ih =>
    intro k i
    cases i with
    | zero => simp [chatHistoryGo]
    | succ j =>
      simp only [chatHistoryGo, List.getElem?_cons_succ, ih (k + 1) j]
      have harith : k + 1 + j = k + (j + 1) := by omega
      rw [harith]

theorem chatHistoryGo_length (l : List (Option String × Option String)) :
    ∀ k : ℕ, (chatHistoryGo k l).length = l.length := by
  induction l with
  | nil => intro k; rfl
  | cons p ps ih => intro k; simp [chatHistoryGo, ih]

theorem zipLongest_length {α β : Type} :
    ∀ (q : List α) (r : List β), (zipLongest q r).length = max q.length r.length := by
  intro q
  induction q with
  | nil => intro r; rw [zipLongest_nil_left]; simp
  | cons a as ih =>
    intro r
    cases r with
    | nil => rw [zipLongest_nil_right]; simp
    | cons b bs => simp [zipLongest, ih bs, Nat.succ_max_succ]

/-- **C10.** `chat_history queries responses` has exactly
`max |queries| |responses|` entries, keyed `"message1"` … `"messageN"` in
sequence, the `i`-th entry pairing the `i`-th query (or `None` past the end)
with the `i`-th response (or `None` past the end). -/
theorem C10_chat_history (queries responses : List String) :
    (chat_history queries responses).length = max queries.length responses.length ∧
    (∀ i : ℕ, (chat_history queries responses)[i]? =
      if i < max queries.length responses.length then
        some (msgKey (i + 1), (queries[i]?, responses[i]?))
      else none) := by
  constructor
  · rw [chat_history, chatHistoryGo_length, zipLongest_length]
  · intro i
    rw [chat_history, chatHistoryGo_getElem?, zipLongest_getElem?]
    by_cases hi : i < max queries.length responses.length
    · simp [hi, Nat.add_comm 1 i]
    · simp [hi]

end Medibot
